import Mathlib

/-!
Verification of the snova repository: the update orchestration pipeline
(`src/snova/utils/snova.py`), site domain reconciliation and config
persistence (`src/config/site_config.py`), modelled as a shallow embedding.
-/

namespace Snova

/-- JSON-compatible values, the value type of both the installation-wide
config and per-site configs. -/
inductive JValue where
  | null : JValue
  | bool (b : Bool) : JValue
  | num (n : Int) : JValue
  | str (s : String) : JValue
  | arr (xs : List JValue) : JValue
  | obj (kvs : List (String × JValue)) : JValue

/-- Python truthiness of a JSON value, as used by `conf.get(...)` guards
(`if conf.get("release_snova"):`, `if cmd:`). -/
def truthy : Option JValue → Bool
  | none => false
  | some .null => false
  | some (.bool b) => b
  | some (.num n) => n != 0
  | some (.str s) => s != ""
  | some (.arr xs) => !xs.isEmpty
  | some (.obj kvs) => !kvs.isEmpty

/-- A JSON object / Python dict, as an insertion-ordered association list. -/
abbrev Config := List (String × JValue)

variable {κ : Type} [DecidableEq κ]

/-- First-match association-list lookup (Python `d.get(k)` /`d[k]`). -/
def lookupA {α : Type} (l : List (κ × α)) (k : κ) : Option α :=
  match l with
  | [] => none
  | (k', v) :: rest => if k' = k then some v else lookupA rest k

/-- Keys of an association list, in insertion order. -/
def keysA {α : Type} (l : List (κ × α)) : List κ := l.map Prod.fst

/-- Python dict assignment `d[k] = v`: replace in place if the key exists,
else append (dict insertion-order semantics). -/
def dictSet {α : Type} (l : List (κ × α)) (k : κ) (v : α) :
    List (κ × α) :=
  match l with
  | [] => [(k, v)]
  | (k', v') :: rest =>
      if k' = k then (k', v) :: rest else (k', v') :: dictSet rest k v

/-- Python `c.update(p)`: fold the items of `p` into `c` in order, each key
replaced wholesale at the top level (no deep merge). -/
def dictUpdate {α : Type} (c p : List (κ × α)) : List (κ × α) :=
  p.foldl (fun acc kv => dictSet acc kv.1 kv.2) c

/-! ## Domain reconciliation (`src/config/site_config.py`) -/

/-- Canonical record form of a domain entry: the dict
`\x7bdomain, ssl_certificate, ssl_certificate_key\x7d`; `none` models an
absent field, so a coalesced bare name carries no certificate fields. -/
structure DomainRecord where
  domain : String
  ssl_certificate : Option String
  ssl_certificate_key : Option String
deriving DecidableEq, Repr

/-- A `DomainEntry` of a site config `domains` list: a bare name (legacy
form) or a record dict. -/
inductive DomainEntry where
  | bare (name : String)
  | record (r : DomainRecord)
deriving DecidableEq, Repr

/-- The dict builder `get_domains_dict` (site_config.py lines 120-129): insertion-ordered
dict from domain name to canonical record; a bare string `d` becomes
`\x7b"domain": d\x7d`, a record keeps its fields, later entries for the
same name overwrite earlier ones (Python dict assignment). -/
def get_domains_dict (domains : List DomainEntry) :
    List (String × DomainRecord) :=
  domains.foldl (fun acc d =>
    match d with
    | .bare s => dictSet acc s ⟨s, none, none⟩
    | .record r => dictSet acc r.domain r) []

/-- The key-set test `set(existing_domains.keys()) != set(new_domains.keys())`
(site_config.py line 100), as the Boolean the code branches on. -/
def keySetNe (a b : List String) : Bool :=
  !((a.all fun k => decide (k ∈ b)) && (b.all fun k => decide (k ∈ a)))

/-- Change detection of `sync_domains` (site_config.py lines 96-107):
`changed` is true when the name sets differ, otherwise when some existing
canonical record `d` differs from `new_domains.get(d["domain"])`. -/
def sync_changed (existing proposed : List DomainEntry) : Bool :=
  let existing_domains := get_domains_dict existing
  let new_domains := get_domains_dict proposed
  if keySetNe (keysA existing_domains) (keysA new_domains) then true
  else (existing_domains.map Prod.snd).any fun d =>
    lookupA new_domains d.domain != some d

/-- The persisted `domains` field of each site config, keyed by
`(snova_path, site)`. The domain operations read this field through
`get_domains` and write it through
`update_site_config(site, \x7b"domains": ...\x7d, snova_path)`, which
touches no other site-config key, so the store abstracts each site config
to that field. -/
abbrev DomainFS := List ((String × String) × List DomainEntry)

/-- The accessor `get_domains` (site_config.py lines 116-117): the `domains` value of
the site config, or `[]` when absent. -/
def get_domains (site snova_path : String) (fs : DomainFS) :
    List DomainEntry :=
  (lookupA fs (snova_path, site)).getD []

/-- The reconciler `sync_domains` (site_config.py lines 94-113): reads the existing
domains from `snova_path`, computes `changed`, and on change writes the
proposed list via `update_site_config(site, \x7b"domains": domains\x7d,
snova_path=".")` — the write path is the literal `"."` of line 111, not
the `snova_path` argument. Returns `changed` and the store after the call. -/
def sync_domains (site : String) (domains : List DomainEntry)
    (snova_path : String) (fs : DomainFS) : Bool × DomainFS :=
  let changed := sync_changed (get_domains site snova_path fs) domains
  if changed then (true, dictSet fs (".", site) domains)
  else (false, fs)

/-- The duplicate test of `add_domain`/`remove_domain` (site_config.py
lines 69 and 87): `(isinstance(d, dict) and d["domain"] == domain) or
d == domain`. A dict never compares equal to a string in Python, so each
entry matches exactly on its name. -/
def entry_matches (d : DomainEntry) (domain : String) : Bool :=
  match d with
  | .bare s => s == domain
  | .record r => r.domain == domain

/-- Python truthiness of an optional certificate string argument
(`if ssl_certificate_key and ssl_certificate:`). -/
def strTruthy : Option String → Bool
  | none => false
  | some s => s != ""

/-- Outcome of `add_domain`: the store after the call, whether the
duplicate warning was printed, and whether a config write happened. -/
structure AddDomainResult where
  fs : DomainFS
  warned : Bool
  wrote : Bool
deriving DecidableEq, Repr

/-- The operation `add_domain` (site_config.py lines 66-81): when an entry with the same
name exists (either representation) it prints the conflict and returns
without writing; otherwise it appends a record (when both certificate and
key are truthy) or the bare name, and writes the config at `snova_path`. -/
def add_domain (site domain : String)
    (ssl_certificate ssl_certificate_key : Option String)
    (snova_path : String) (fs : DomainFS) : AddDomainResult :=
  let domains := get_domains site snova_path fs
  if domains.any fun d => entry_matches d domain then
    ⟨fs, true, false⟩
  else
    let entry : DomainEntry :=
      if strTruthy ssl_certificate_key && strTruthy ssl_certificate then
        .record ⟨domain, ssl_certificate, ssl_certificate_key⟩
      else .bare domain
    ⟨dictSet fs (snova_path, site) (domains ++ [entry]), false, true⟩

/-! ## Config persistence (`src/config/site_config.py` and
`update_common_site_config` in `src/snova/utils/snova.py`) -/

/-- Per-site configs on disk, keyed by `(snova_path, site)`. -/
abbrev SiteCfgFS := List ((String × String) × Config)

/-- The reader `get_site_config` (site_config.py lines 7-12): the config of the site, or
the empty dict when the file is missing. -/
def get_site_config (site snova_path : String) (fs : SiteCfgFS) : Config :=
  (lookupA fs (snova_path, site)).getD []

/-- The writer `put_site_config` (site_config.py lines 15-18): full overwrite of the
site config file. -/
def put_site_config (site : String) (config : Config) (snova_path : String)
    (fs : SiteCfgFS) : SiteCfgFS :=
  dictSet fs (snova_path, site) config

/-- The merger `update_site_config` (site_config.py lines 21-24): read-modify-write
with a top-level `dict.update` merge. -/
def update_site_config (site : String) (new_config : Config)
    (snova_path : String) (fs : SiteCfgFS) : SiteCfgFS :=
  put_site_config site
    (dictUpdate (get_site_config site snova_path fs) new_config)
    snova_path fs

/-- Installation-wide configs on disk, keyed by `snova_path`
(`sites/common_site_config.json`). -/
abbrev CommonCfgFS := List (String × Config)

/-- The writer `update_common_site_config` (snova.py lines 545-557): read the common
config (empty when the file is missing), top-level `dict.update` merge,
write back. -/
def update_common_site_config (ddict : Config) (snova_path : String)
    (fs : CommonCfgFS) : CommonCfgFS :=
  dictSet fs snova_path (dictUpdate ((lookupA fs snova_path).getD []) ddict)

/-! ## JSON serialization, `json.dump(..., indent=1[, sort_keys=True])` -/

/-- The newline-plus-indent emitted between items by
`json.dump(..., indent=1)` at nesting depth `level`. -/
def jIndent (level : Nat) : String :=
  "\n" ++ String.mk (List.replicate level ' ')

/-- A JSON string literal. The configs at issue hold plain text, so the
escape table is the identity. -/
def jstring (s : String) : String := "\"" ++ s ++ "\""

mutual

/-- Python `json.dumps(value, indent=1)` at nesting depth `level`. -/
def jser (level : Nat) : JValue → String
  | .null => "null"
  | .bool b => if b then "true" else "false"
  | .num n => toString n
  | .str s => jstring s
  | .arr xs => if xs.isEmpty then "[]"
      else "[" ++ jserArr (level + 1) xs ++ jIndent level ++ "]"
  | .obj kvs => if kvs.isEmpty then "\x7b\x7d"
      else "\x7b" ++ jserObj (level + 1) kvs ++ jIndent level ++ "\x7d"

/-- Array items, comma separated, each on its own indented line. -/
def jserArr (level : Nat) : List JValue → String
  | [] => ""
  | [x] => jIndent level ++ jser level x
  | x :: y :: xs => jIndent level ++ jser level x ++ ","
      ++ jserArr level (y :: xs)

/-- Object items, comma separated, each on its own indented line. -/
def jserObj (level : Nat) : List (String × JValue) → String
  | [] => ""
  | [(k, v)] => jIndent level ++ jstring k ++ ": " ++ jser level v
  | (k, v) :: kv :: kvs =>
      jIndent level ++ jstring k ++ ": " ++ jser level v ++ ","
        ++ jserObj level (kv :: kvs)

end

/-- Python string comparison on code-point sequences (lexicographic `<=`),
the order used by `sorted` under `sort_keys=True`. -/
def charListLe : List Char → List Char → Bool
  | [], _ => true
  | _ :: _, [] => false
  | c :: cs, d :: ds =>
      if c.toNat < d.toNat then true
      else if d.toNat < c.toNat then false
      else charListLe cs ds

/-- Comparison `a <= b` on Python strings. -/
def strLeb (a b : String) : Bool := charListLe a.data b.data

/-- Insert one item into a key-sorted item list, keeping it sorted. -/
def insertSorted (x : String × JValue) :
    List (String × JValue) → List (String × JValue)
  | [] => [x]
  | y :: ys => if strLeb x.1 y.1 then x :: y :: ys else y :: insertSorted x ys

/-- Under `sort_keys=True`, the object items ordered by key as Python
`sorted` orders them. -/
def sortKeys : List (String × JValue) → List (String × JValue)
  | [] => []
  | x :: xs => insertSorted x (sortKeys xs)

/-- The bytes `put_site_config` writes (site_config.py line 18):
`json.dump(config, f, indent=1)` — insertion order, no key sorting. -/
def serialize_site_config (config : Config) : String :=
  jser 0 (.obj config)

/-- The bytes `update_common_site_config` writes (snova.py line 557):
`json.dump(content, f, indent=1, sort_keys=True)`. -/
def serialize_common_site_config (content : Config) : String :=
  jser 0 (.obj (sortKeys content))

/-- Key order on object items, as compared by `sorted` under
`sort_keys=True`. -/
def keyLe (a b : String × JValue) : Prop := strLeb a.1 b.1 = true

/-! ## The update orchestration pipeline
(`update` in `src/snova/utils/snova.py`, lines 388-469) -/

/-- Pipeline steps recorded in the run trace, in the order `update`
performs them. `persistConf` is a call to
`update_config(conf, snova_path=snova_path)`, the installation-config
persist; the written contents are tracked separately in `UState.writes`. -/
inductive Step where
  | patchesRun
  | validateBranch
  | persistConf
  | backup
  | pull
  | requirements
  | patchSite (site : String)
  | build
  | postUpgrade
  | reload
deriving DecidableEq, Repr

/-- Terminal errors of an `update` run: `CannotUpdateReleaseSnova`
(line 418), `sys.exit` from `validate_branch` (line 631), `click.Abort`
from the major-upgrade confirmation (line 369), the nodejs/npm check of
`validate_upgrade` (line 242), `PatchError` from `patch_sites`
(line 276), and the propagated failures of the collaborator stages. -/
inductive UErr where
  | patchesRunFailed
  | cannotUpdateReleaseSnova
  | branchDeprecated
  | userAbort
  | upgradeBlocked
  | backupFailed
  | pullFailed
  | requirementsFailed
  | patchError
  | buildFailed
deriving DecidableEq, Repr

/-- Per-run outcomes of the external collaborators the orchestrator
invokes; the spec treats them as opaque steps that either succeed or
raise. `failingSites` are the sites whose `migrate_site` raises
`subprocess.CalledProcessError`. -/
structure Env where
  patchesRunOk : Bool
  deprecatedBranch : Bool
  isMajorUpgrade : Bool
  fromVer : Nat
  toVer : Nat
  userConfirms : Bool
  hasNodeRuntime : Bool
  backupOk : Bool
  pullOk : Bool
  requirementsOk : Bool
  buildOk : Bool
  sites : List String
  failingSites : List String

/-- Run state threaded through `update`: the in-memory `conf` dict, the
contents of every `update_config` persist (most recent first; the file on
disk holds the head), and the step trace. -/
structure UState where
  conf : Config
  writes : List Config
  trace : List Step

/-- Record one executed step. -/
def logStep (st : UState) (s : Step) : UState :=
  { st with trace := st.trace ++ [s] }

/-- Modelled from the spec: `update_config` (imported from
`snova.config.common_site_config`, not under src/) persists the given
installation config mapping — the "Set ... in installation config,
persist" action of the Enter/Exit maintenance stages. The written
contents are prepended to `UState.writes`. -/
def persistConf (st : UState) (c : Config) : UState :=
  { st with
    conf := c
    writes := c :: st.writes
    trace := st.trace ++ [Step.persistConf] }

/-- Sequencing of pipeline stages: a raised error skips everything after
it, keeping the state at the raise. -/
def seqE (r : Except UErr Unit × UState)
    (f : UState → Except UErr Unit × UState) : Except UErr Unit × UState :=
  match r with
  | (.ok _, st) => f st
  | (.error e, st) => (.error e, st)

/-- One flag-gated collaborator stage of `update`: skipped when its flag
is off, otherwise runs and either succeeds or raises `e`. -/
def stage (cond : Bool) (s : Step) (ok : Bool) (e : UErr) (st : UState) :
    Except UErr Unit × UState :=
  if cond then
    let st' := logStep st s
    if ok then (.ok (), st') else (.error e, st')
  else (.ok (), st)

/-- The loop `patch_sites` (snova.py lines 266-276): `migrate_site` per site in
order; the first `CalledProcessError` is re-raised as `PatchError`,
aborting the loop and the run. -/
def patch_sites (failing : List String) :
    List String → UState → Except UErr Unit × UState
  | [], st => (.ok (), st)
  | s :: rest, st =>
      let st' := logStep st (.patchSite s)
      if s ∈ failing then (.error .patchError, st')
      else patch_sites failing rest st'

/-- The gate `handle_version_upgrade` (snova.py lines 354-385): confirmation
aborts a non-forced major upgrade when declined; then `validate_upgrade`
(lines 240-242) raises when the target major version is at least 6 and
neither npm, node nor nodejs is on PATH. The shallow-clone warning is a
non-fatal pause and leaves no state. -/
def handle_version_upgrade (env : Env) (force : Bool) :
    Except UErr Unit :=
  if env.isMajorUpgrade && !force && !env.userConfirms then
    .error .userAbort
  else if (env.isMajorUpgrade || (!env.isMajorUpgrade && force))
      && (6 ≤ env.toVer && !env.hasNodeRuntime) then
    .error .upgradeBlocked
  else .ok ()

/-- The tail of the pipeline after the patch stage: the build stage, then
the always-run post-upgrade/reload/exit-maintenance sequence (snova.py
lines 452-462). `post_upgrade` runs when a major upgrade was detected or
`--force` was passed; the reload excludes web workers; finally
`maintenance_mode` and `pause_scheduler` are reset to 0 and persisted. -/
def updateTail (env : Env) (build force : Bool) (st : UState) :
    Except UErr Unit × UState :=
  seqE (stage build .build env.buildOk .buildFailed st) fun st1 =>
    let st2 := if env.isMajorUpgrade || (!env.isMajorUpgrade && force) then
        logStep st1 .postUpgrade
      else st1
    let st3 := logStep st2 .reload
    let conf2 := dictUpdate st3.conf
      [("maintenance_mode", JValue.num 0), ("pause_scheduler", JValue.num 0)]
    (.ok (), persistConf st3 conf2)

/-- The orchestrator `update` (snova.py lines 388-469). In source order: `patches.run`;
read `conf`; raise `CannotUpdateReleaseSnova` when `release_snova` is
truthy; default all four stage flags on when none was passed;
`validate_branch` (may `sys.exit`); `handle_version_upgrade`; set
`maintenance_mode=1, pause_scheduler=1` and persist; then the backup,
pull, requirements, patch, build stages, each propagating its failure;
then post-upgrade, reload, and the maintenance-off persist. -/
def update (env : Env)
    (pull patch build requirements backup force : Bool)
    (conf0 : Config) : Except UErr Unit × UState :=
  let st0 : UState := { conf := conf0, writes := [], trace := [] }
  let st1 := logStep st0 .patchesRun
  if !env.patchesRunOk then (.error .patchesRunFailed, st1)
  else if truthy (lookupA conf0 "release_snova") then
    (.error .cannotUpdateReleaseSnova, st1)
  else
    let defAll := !(pull || patch || build || requirements)
    let pull := if defAll then true else pull
    let patch := if defAll then true else patch
    let build := if defAll then true else build
    let requirements := if defAll then true else requirements
    let st2 := logStep st1 .validateBranch
    if env.deprecatedBranch then (.error .branchDeprecated, st2)
    else
      match handle_version_upgrade env force with
      | .error e => (.error e, st2)
      | .ok _ =>
        let conf1 := dictUpdate conf0
          [("maintenance_mode", JValue.num 1),
            ("pause_scheduler", JValue.num 1)]
        let st3 := persistConf st2 conf1
        seqE (stage backup .backup env.backupOk .backupFailed st3) fun st4 =>
        seqE (stage pull .pull env.pullOk .pullFailed st4) fun st5 =>
        seqE (stage requirements .requirements env.requirementsOk
            .requirementsFailed st5) fun st6 =>
        seqE (if patch then patch_sites env.failingSites env.sites st6
            else (.ok (), st6)) fun st7 =>
        updateTail env build force st7

/-- A concrete run environment: every collaborator succeeds except the
data migration of the single site, which fails. -/
def envPatchFail : Env :=
  { patchesRunOk := true
    deprecatedBranch := false
    isMajorUpgrade := false
    fromVer := 13
    toVer := 13
    userConfirms := true
    hasNodeRuntime := true
    backupOk := true
    pullOk := true
    requirementsOk := true
    buildOk := true
    sites := ["site1.local"]
    failingSites := ["site1.local"] }

/-- A concrete run environment where every collaborator succeeds. -/
def envAllOk : Env :=
  { patchesRunOk := true
    deprecatedBranch := false
    isMajorUpgrade := false
    fromVer := 13
    toVer := 13
    userConfirms := true
    hasNodeRuntime := true
    backupOk := true
    pullOk := true
    requirementsOk := true
    buildOk := true
    sites := ["site1.local"]
    failingSites := [] }

/-! ## Supervisor restart resolution
(`restart_supervisor_processes` in `src/snova/utils/snova.py`,
lines 279-323) -/

/-- Whether the character list `needle` is a prefix of `haystack`. -/
def listStarts : List Char → List Char → Bool
  | [], _ => true
  | _ :: _, [] => false
  | c :: cs, d :: ds => if c = d then listStarts cs ds else false

/-- Whether `needle` occurs as a contiguous run inside `haystack`
(Python `needle in haystack` on strings). -/
def listSub (haystack needle : List Char) : Bool :=
  match haystack with
  | [] => needle.isEmpty
  | _ :: cs => listStarts needle haystack || listSub cs needle

/-- Python substring test `pat in s`. -/
def containsSub (s pat : String) : Bool := listSub s.data pat.data

/-- The permission-failure marker checked against the probe output
(snova.py line 302):
`error: <class PermissionError>, [Errno 13] Permission denied`,
with the class name quoted in the output. -/
def permDeniedMarker : String :=
  "error: <class " ++ String.singleton (Char.ofNat 39)
    ++ "PermissionError" ++ String.singleton (Char.ofNat 39)
    ++ ">, [Errno 13] Permission denied"

/-- The restart group resolution (snova.py lines 307-319): first match
in priority order over the probe output — the web-only group (only when
`web_workers` was requested), the combined workers+web group, the legacy
processes group, then the hardcoded `sparrow:` fallback. -/
def selectGroup (web_workers : Bool) (snova_name status : String) :
    String :=
  if web_workers && containsSub status (snova_name ++ "-web:") then
    snova_name ++ "-web:\t"
  else if containsSub status (snova_name ++ "-workers:") then
    snova_name ++ "-workers: " ++ snova_name ++ "-web:"
  else if containsSub status (snova_name ++ "-processes:") then
    snova_name ++ "-processes:"
  else
    "sparrow:"

/-- External commands `restart_supervisor_processes` issues, in order. -/
inductive RCmd where
  | overrideCmd
  | probe (escalated : Bool)
  | restart (cmd : String)
deriving DecidableEq, Repr

/-- Terminal outcome of `restart_supervisor_processes`: the override
command path, the non-fatal skip (probe exit code 127, warning logged),
an uncaught propagated exception (the escalated probe failed), or a
completed restart whose command failure, if any, is only warned about. -/
inductive ROutcome where
  | ranOverride
  | skipped
  | raised
  | restarted (warnedFailure : Bool)
deriving DecidableEq, Repr

/-- Inputs of one `restart_supervisor_processes` call: the installation
config, the outcome of the non-escalated and escalated status probes
(`.error rc` models `subprocess.CalledProcessError` with that return
code, `.ok out` the captured output), and whether the final restart
command reports failure. -/
structure REnv where
  conf : Config
  probeResult : Except Nat String
  sudoProbeResult : Except Nat String
  restartFails : Bool

/-- The group-restart tail of `restart_supervisor_processes` (lines
307-323): resolve the group from the probe output, issue
`\x7bsudo\x7dsupervisorctl restart \x7bgroup\x7d`, and warn (without
raising) when it fails. -/
def issueRestart (env : REnv) (snova_name : String) (web_workers : Bool)
    (useSudo : Bool) (status : String) (tr : List RCmd) :
    ROutcome × List RCmd :=
  let group := selectGroup web_workers snova_name status
  let cmd := (if useSudo then "sudo " else "") ++ "supervisorctl restart "
    ++ group
  (.restarted env.restartFails, tr ++ [.restart cmd])

/-- The resolver `restart_supervisor_processes` (snova.py lines 279-323): an override
`supervisor_restart_cmd` is run as-is; otherwise the non-escalated probe
runs — exit code 127 logs a warning and returns (skip), any other failure
retries the probe with sudo (whose own failure propagates), a success
whose output carries the permission-denied marker also retries with
sudo, and the resolved group is then restarted with the matching
escalation prefix. -/
def restart_supervisor_processes (env : REnv) (snova_name : String)
    (web_workers : Bool) : ROutcome × List RCmd :=
  if truthy (lookupA env.conf "supervisor_restart_cmd") then
    (.ranOverride, [.overrideCmd])
  else
    match env.probeResult with
    | .error rc =>
        if rc = 127 then (.skipped, [.probe false])
        else
          match env.sudoProbeResult with
          | .error _ => (.raised, [.probe false, .probe true])
          | .ok out2 =>
              issueRestart env snova_name web_workers true out2
                [.probe false, .probe true]
    | .ok out =>
        if containsSub out permDeniedMarker then
          match env.sudoProbeResult with
          | .error _ => (.raised, [.probe false, .probe true])
          | .ok out2 =>
              issueRestart env snova_name web_workers true out2
                [.probe false, .probe true]
        else
          issueRestart env snova_name web_workers false out [.probe false]

/-! ## Theorems -/

theorem lookupA_dictSet_self {α : Type} (l : List (κ × α)) (k : κ)
    (v : α) : lookupA (dictSet l k v) k = some v := by
  induction l with
  | nil => simp [dictSet, lookupA]
  | cons hd tl ih =>
      obtain ⟨k', v'⟩ := hd
      by_cases h : k' = k
      · simp [dictSet, h, lookupA]
      · simp [dictSet, h, lookupA, ih]

theorem lookupA_dictSet_ne {α : Type} (l : List (κ × α)) (k k' : κ)
    (v : α) (h : k ≠ k') : lookupA (dictSet l k v) k' = lookupA l k' := by
  induction l with
  | nil => simp [dictSet, lookupA, h]
  | cons hd tl ih =>
      obtain ⟨k₀, v₀⟩ := hd
      by_cases h0 : k₀ = k
      · subst h0
        simp [dictSet, lookupA, h]
      · simp [dictSet, h0, lookupA, ih]

/-- A key not mentioned by the partial mapping keeps its old value. -/
theorem lookupA_dictUpdate_not_mem {α : Type} (c p : List (κ × α))
    (k : κ) (hk : k ∉ keysA p) :
    lookupA (dictUpdate c p) k = lookupA c k := by
  induction p generalizing c with
  | nil => simp [dictUpdate]
  | cons hd tl ih =>
      obtain ⟨k', v'⟩ := hd
      simp only [keysA, List.map_cons, List.mem_cons] at hk
      push_neg at hk
      have h1 : lookupA (dictUpdate (dictSet c k' v') tl) k
          = lookupA (dictSet c k' v') k := by
        have := ih (c := dictSet c k' v')
        simp only [keysA] at this hk
        exact this hk.2
      simp only [dictUpdate, List.foldl_cons] at *
      rw [h1, lookupA_dictSet_ne _ _ _ _ (fun h => hk.1 h.symm)]

/-- A key present in the partial mapping ends up bound to the partial
value taken from the partial mapping (wholesale replacement). -/
theorem lookupA_dictUpdate_mem {α : Type} (c p : List (κ × α))
    (k : κ) (v : α) (hnd : (keysA p).Nodup) (hv : lookupA p k = some v) :
    lookupA (dictUpdate c p) k = some v := by
  induction p generalizing c with
  | nil => simp [lookupA] at hv
  | cons hd tl ih =>
      obtain ⟨k', v'⟩ := hd
      simp only [keysA, List.map_cons, List.nodup_cons] at hnd
      simp only [lookupA] at hv
      by_cases h : k' = k
      · subst h
        simp only [if_pos rfl] at hv
        cases hv
        simp only [dictUpdate, List.foldl_cons]
        have : k' ∉ keysA tl := by simpa [keysA] using hnd.1
        have h2 := lookupA_dictUpdate_not_mem (dictSet c k' v) tl k' this
        simp only [dictUpdate] at h2
        rw [h2, lookupA_dictSet_self]
      · simp only [if_neg h] at hv
        simp only [dictUpdate, List.foldl_cons]
        have := ih (c := dictSet c k' v') hnd.2 hv
        simpa [dictUpdate] using this

theorem mem_dictSet_cases {α : Type} {l : List (κ × α)} {k : κ} {v : α}
    {x : κ × α} (hx : x ∈ dictSet l k v) : x = (k, v) ∨ x ∈ l := by
  induction l with
  | nil =>
      simp only [dictSet, List.mem_singleton] at hx
      exact .inl hx
  | cons hd tl ih =>
      obtain ⟨k', v'⟩ := hd
      by_cases h : k' = k
      · subst h
        rw [show dictSet ((k', v') :: tl) k' v = (k', v) :: tl by
          simp [dictSet]] at hx
        rcases List.mem_cons.mp hx with h1 | h1
        · exact .inl h1
        · exact .inr (List.mem_cons_of_mem _ h1)
      · rw [show dictSet ((k', v') :: tl) k v = (k', v') :: dictSet tl k v by
          simp [dictSet, h]] at hx
        rcases List.mem_cons.mp hx with h1 | h1
        · exact .inr (by simp [h1])
        · rcases ih h1 with h2 | h2
          · exact .inl h2
          · exact .inr (List.mem_cons_of_mem _ h2)

theorem keysA_dictSet {α : Type} (l : List (κ × α)) (k : κ) (v : α) :
    keysA (dictSet l k v) = if k ∈ keysA l then keysA l else keysA l ++ [k] := by
  induction l with
  | nil => simp [dictSet, keysA]
  | cons hd tl ih =>
      obtain ⟨k', v'⟩ := hd
      by_cases h : k' = k
      · subst h
        simp [dictSet, keysA]
      · have h' : ¬k = k' := fun hh => h hh.symm
        simp only [dictSet, if_neg h, keysA, List.map_cons, List.mem_cons]
        simp only [keysA] at ih
        rw [ih]
        by_cases hm : k ∈ List.map Prod.fst tl
        · simp [hm, h']
        · simp [hm, h']

theorem nodup_keysA_dictSet {α : Type} {l : List (κ × α)} (k : κ) (v : α)
    (h : (keysA l).Nodup) : (keysA (dictSet l k v)).Nodup := by
  rw [keysA_dictSet]
  by_cases hm : k ∈ keysA l
  · simpa [hm] using h
  · simpa [hm, List.nodup_append] using h

theorem lookupA_eq_none_iff {α : Type} (l : List (κ × α)) (k : κ) :
    lookupA l k = none ↔ k ∉ keysA l := by
  induction l with
  | nil => simp [lookupA, keysA]
  | cons hd tl ih =>
      obtain ⟨k', v'⟩ := hd
      by_cases h : k' = k
      · subst h
        simp [lookupA, keysA]
      · have h' : ¬k = k' := fun hh => h hh.symm
        simp [lookupA, h, keysA, ih, h']

theorem lookupA_of_mem_nodup {α : Type} {l : List (κ × α)} {k : κ} {v : α}
    (hnd : (keysA l).Nodup) (hm : (k, v) ∈ l) : lookupA l k = some v := by
  induction l with
  | nil => simp at hm
  | cons hd tl ih =>
      obtain ⟨k', v'⟩ := hd
      simp only [keysA, List.map_cons, List.nodup_cons] at hnd
      rcases List.mem_cons.mp hm with h1 | h1
      · cases h1
        simp [lookupA]
      · have hk : k' ≠ k := by
          intro h
          subst h
          exact hnd.1 (by simpa [keysA] using List.mem_map_of_mem Prod.fst h1)
        simp only [lookupA, if_neg hk]
        exact ih (by simpa [keysA] using hnd.2) h1

/-- Every pair of `get_domains_dict l` maps a name to a record carrying
that name, and the dict keys are nodup. -/
theorem get_domains_dict_invariant (l : List DomainEntry) :
    (∀ p ∈ get_domains_dict l, (p : String × DomainRecord).2.domain = p.1) ∧
      (keysA (get_domains_dict l)).Nodup := by
  suffices h : ∀ acc : List (String × DomainRecord),
      (∀ p ∈ acc, (p : String × DomainRecord).2.domain = p.1) →
      (keysA acc).Nodup →
      (∀ p ∈ l.foldl (fun acc d =>
        match d with
        | .bare s => dictSet acc s ⟨s, none, none⟩
        | .record r => dictSet acc r.domain r) acc,
          (p : String × DomainRecord).2.domain = p.1) ∧
      (keysA (l.foldl (fun acc d =>
        match d with
        | .bare s => dictSet acc s ⟨s, none, none⟩
        | .record r => dictSet acc r.domain r) acc)).Nodup by
    exact h [] (by simp) (by simp [keysA])
  induction l with
  | nil => intro acc h1 h2; exact ⟨h1, h2⟩
  | cons d tl ih =>
      intro acc h1 h2
      simp only [List.foldl_cons]
      cases d with
      | bare s =>
          refine ih _ ?_ (nodup_keysA_dictSet _ _ h2)
          intro p hp
          rcases mem_dictSet_cases hp with h | h
          · subst h; rfl
          · exact h1 p h
      | record r =>
          refine ih _ ?_ (nodup_keysA_dictSet _ _ h2)
          intro p hp
          rcases mem_dictSet_cases hp with h | h
          · subst h; rfl
          · exact h1 p h

/-- When every name resolves to the same canonical record in both dicts,
the change-detection of `sync_domains` reports no change. -/
theorem sync_changed_false_of_equiv (existing proposed : List DomainEntry)
    (h : ∀ n, lookupA (get_domains_dict existing) n
        = lookupA (get_domains_dict proposed) n) :
    sync_changed existing proposed = false := by
  obtain ⟨hinv_e, hnd_e⟩ := get_domains_dict_invariant existing
  have hmem : ∀ n, n ∈ keysA (get_domains_dict existing)
      ↔ n ∈ keysA (get_domains_dict proposed) := by
    intro n
    rw [← not_iff_not, ← lookupA_eq_none_iff, ← lookupA_eq_none_iff, h n]
  have hks : keySetNe (keysA (get_domains_dict existing))
      (keysA (get_domains_dict proposed)) = false := by
    have ha : ((keysA (get_domains_dict existing)).all fun k =>
        decide (k ∈ keysA (get_domains_dict proposed))) = true := by
      rw [List.all_eq_true]
      intro k hk
      exact decide_eq_true ((hmem k).mp hk)
    have hb : ((keysA (get_domains_dict proposed)).all fun k =>
        decide (k ∈ keysA (get_domains_dict existing))) = true := by
      rw [List.all_eq_true]
      intro k hk
      exact decide_eq_true ((hmem k).mpr hk)
    simp [keySetNe, ha, hb]
  have hany : (((get_domains_dict existing).map Prod.snd).any fun d =>
      lookupA (get_domains_dict proposed) d.domain != some d) = false := by
    rw [List.any_eq_false]
    rintro d hd
    obtain ⟨⟨n, r⟩, hmem', rfl⟩ := List.mem_map.mp hd
    have hdom : r.domain = n := hinv_e (n, r) hmem'
    have hle : lookupA (get_domains_dict existing) n = some r :=
      lookupA_of_mem_nodup hnd_e hmem'
    simp only [hdom, ← h n, hle, bne_self_eq_false, Bool.false_eq_true,
      not_false_eq_true]
  simp only [sync_changed, hks, Bool.false_eq_true, if_false, hany]

/-- C3: `sync_domains` on a proposed list semantically equal to the
existing one — same name set and, per name, the same canonical record,
under any mix of bare/record representations and any ordering — returns
`changed = false` and leaves the persisted store untouched (no config
write happens). -/
theorem sync_domains_semantically_equal_noop (site snova_path : String)
    (domains : List DomainEntry) (fs : DomainFS)
    (h : ∀ n, lookupA (get_domains_dict (get_domains site snova_path fs)) n
        = lookupA (get_domains_dict domains) n) :
    sync_domains site domains snova_path fs = (false, fs) := by
  have hch := sync_changed_false_of_equiv _ _ h
  simp only [sync_domains, hch, Bool.false_eq_true, if_false]

/-- C3 witness: existing `[record b.com X Y, "a.com"]` versus proposed
`["a.com", record b.com X Y]` (reordered, same canonical records) is a
no-op. -/
theorem sync_domains_semantically_equal_noop_witness :
    sync_domains "mysite" [.bare "a.com",
        .record ⟨"b.com", some "X", some "Y"⟩] "."
      [((".", "mysite"),
        [.record ⟨"b.com", some "X", some "Y"⟩, .bare "a.com"])]
      = (false, [((".", "mysite"),
        [.record ⟨"b.com", some "X", some "Y"⟩, .bare "a.com"])]) := by
  apply sync_domains_semantically_equal_noop
  intro n
  show lookupA (get_domains_dict
      [.record ⟨"b.com", some "X", some "Y"⟩, .bare "a.com"]) n = _
  by_cases h1 : n = "a.com"
  · subst h1; rfl
  · by_cases h2 : n = "b.com"
    · subst h2; rfl
    · have ha : ¬("a.com" = n) := fun h => h1 h.symm
      have hb : ¬("b.com" = n) := fun h => h2 h.symm
      simp [get_domains_dict, dictSet, lookupA, ha, hb]

/-- C4: when the existing and proposed name sets agree (the key-set
test of the code reports no difference) but the canonical record of some
existing name is
not reproduced by the proposed dict, `sync_domains` reports a change. -/
theorem sync_domains_detects_record_diff (site snova_path : String)
    (domains : List DomainEntry) (fs : DomainFS)
    (hkeys : keySetNe
        (keysA (get_domains_dict (get_domains site snova_path fs)))
        (keysA (get_domains_dict domains)) = false)
    (hdiff : ∃ p ∈ get_domains_dict (get_domains site snova_path fs),
        lookupA (get_domains_dict domains) (p : String × DomainRecord).1
          ≠ some p.2) :
    (sync_domains site domains snova_path fs).1 = true := by
  obtain ⟨hinv_e, _⟩ :=
    get_domains_dict_invariant (get_domains site snova_path fs)
  obtain ⟨⟨n, r⟩, hmem', hne⟩ := hdiff
  have hdom : r.domain = n := hinv_e (n, r) hmem'
  have hany : (((get_domains_dict
      (get_domains site snova_path fs)).map Prod.snd).any fun d =>
      lookupA (get_domains_dict domains) d.domain != some d) = true := by
    rw [List.any_eq_true]
    refine ⟨r, List.mem_map_of_mem Prod.snd hmem', ?_⟩
    simpa [hdom] using hne
  have hch : sync_changed (get_domains site snova_path fs) domains = true := by
    simp only [sync_changed, hkeys, Bool.false_eq_true, if_false, hany]
  simp only [sync_domains, hch, if_true]

/-- C4 witness: scenario A of the spec — existing
`["a.com", record b.com X Y]`, proposed `["a.com", "b.com"]` — reports
`changed = true` because the record fields differ from the coalesced bare
form. -/
theorem sync_domains_detects_record_diff_witness :
    (sync_domains "mysite" [.bare "a.com", .bare "b.com"] "."
      [((".", "mysite"),
        [.bare "a.com", .record ⟨"b.com", some "X", some "Y"⟩])]).1
      = true := by
  apply sync_domains_detects_record_diff
  · decide
  · exact ⟨("b.com", ⟨"b.com", some "X", some "Y"⟩), by decide, by decide⟩

/-- C5: when a change is detected, the persisting write of `sync_domains`
targets the literal path `"."` (line 111), not the `snova_path` argument:
for `snova_path ≠ "."` the store entry that was read stays unchanged even
though `changed = true`, and the write lands under `(".", site)`. -/
theorem sync_domains_write_targets_cwd (site snova_path : String)
    (domains : List DomainEntry) (fs : DomainFS)
    (hpath : snova_path ≠ ".")
    (hch : sync_changed (get_domains site snova_path fs) domains = true) :
    (sync_domains site domains snova_path fs).1 = true ∧
    lookupA (sync_domains site domains snova_path fs).2 (snova_path, site)
      = lookupA fs (snova_path, site) ∧
    lookupA (sync_domains site domains snova_path fs).2 (".", site)
      = some domains := by
  have hne : ((".", site) : String × String) ≠ (snova_path, site) := by
    intro h
    exact hpath (congrArg Prod.fst h).symm
  simp only [sync_domains, hch, if_true]
  exact ⟨trivial, lookupA_dictSet_ne _ _ _ _ hne, lookupA_dictSet_self _ _ _⟩

/-- C5 witness: with the site config stored under `"/other"`, a changed
sync leaves `("/other", site)` untouched and writes under `(".", site)`. -/
theorem sync_domains_write_targets_cwd_witness :
    (sync_domains "s" [.bare "y.com"] "/other"
        [(("/other", "s"), [.bare "x.com"])]).1 = true ∧
    lookupA (sync_domains "s" [.bare "y.com"] "/other"
        [(("/other", "s"), [.bare "x.com"])]).2 ("/other", "s")
      = some [.bare "x.com"] ∧
    lookupA (sync_domains "s" [.bare "y.com"] "/other"
        [(("/other", "s"), [.bare "x.com"])]).2 (".", "s")
      = some [.bare "y.com"] := by
  have h := sync_domains_write_targets_cwd "s" "/other" [.bare "y.com"]
    [(("/other", "s"), [.bare "x.com"])] (by decide) (by decide)
  exact ⟨h.1, h.2.1.trans rfl, h.2.2⟩

/-- C8: `add_domain` with a name already present in the domain list of
the site, whether as a bare string or as a record, prints the conflict
warning and returns without modifying the store and without a config
write. -/
theorem add_domain_existing_is_noop (site domain : String)
    (ssl_certificate ssl_certificate_key : Option String)
    (snova_path : String) (fs : DomainFS)
    (h : ∃ d ∈ get_domains site snova_path fs,
        entry_matches d domain = true) :
    add_domain site domain ssl_certificate ssl_certificate_key
      snova_path fs = ⟨fs, true, false⟩ := by
  have hany : ((get_domains site snova_path fs).any fun d =>
      entry_matches d domain) = true := List.any_eq_true.mpr h
  simp only [add_domain, hany, if_true]

/-- C8 witness: adding `a.com` by record when a bare `a.com` entry exists
is a warned no-op. -/
theorem add_domain_existing_is_noop_witness :
    add_domain "s" "a.com" (some "C") (some "K") "."
        [((".", "s"), [.bare "a.com", .bare "b.com"])]
      = ⟨[((".", "s"), [.bare "a.com", .bare "b.com"])], true, false⟩ := by
  exact add_domain_existing_is_noop "s" "a.com" (some "C") (some "K") "."
    [((".", "s"), [.bare "a.com", .bare "b.com"])]
    ⟨.bare "a.com", by decide, by decide⟩

/-- C9: the read-modify-write update of a site config and of the
installation-wide config merges at the top level only: a key absent from
the partial mapping keeps its previous value, and a key present in the
partial mapping is bound to exactly the value from the partial mapping,
even when
both values are nested objects (wholesale replacement, no deep merge). -/
theorem update_config_top_level_merge (site snova_path : String)
    (new_config ddict : Config) (sfs : SiteCfgFS) (cfs : CommonCfgFS)
    (k : String) :
    (k ∉ keysA new_config →
      lookupA (get_site_config site snova_path
          (update_site_config site new_config snova_path sfs)) k
        = lookupA (get_site_config site snova_path sfs) k) ∧
    (∀ v, (keysA new_config).Nodup → lookupA new_config k = some v →
      lookupA (get_site_config site snova_path
          (update_site_config site new_config snova_path sfs)) k = some v) ∧
    (k ∉ keysA ddict →
      lookupA ((lookupA (update_common_site_config ddict snova_path cfs)
          snova_path).getD []) k
        = lookupA ((lookupA cfs snova_path).getD []) k) ∧
    (∀ v, (keysA ddict).Nodup → lookupA ddict k = some v →
      lookupA ((lookupA (update_common_site_config ddict snova_path cfs)
          snova_path).getD []) k = some v) := by
  have hsite : get_site_config site snova_path
      (update_site_config site new_config snova_path sfs)
      = dictUpdate (get_site_config site snova_path sfs) new_config := by
    simp [get_site_config, update_site_config, put_site_config,
      lookupA_dictSet_self]
  have hcommon : (lookupA (update_common_site_config ddict snova_path cfs)
      snova_path).getD []
      = dictUpdate ((lookupA cfs snova_path).getD []) ddict := by
    simp [update_common_site_config, lookupA_dictSet_self]
  refine ⟨?_, ?_, ?_, ?_⟩
  · intro hk
    rw [hsite, lookupA_dictUpdate_not_mem _ _ _ hk]
  · intro v hnd hv
    rw [hsite, lookupA_dictUpdate_mem _ _ _ _ hnd hv]
  · intro hk
    rw [hcommon, lookupA_dictUpdate_not_mem _ _ _ hk]
  · intro v hnd hv
    rw [hcommon, lookupA_dictUpdate_mem _ _ _ _ hnd hv]

/-- C9 witness: updating `\x7b"k": "v"\x7d` into a config with an
unrelated key and a nested key preserves the unrelated key and replaces
the nested object wholesale, for both writers. -/
theorem update_config_top_level_merge_witness :
    lookupA (get_site_config "s" "."
        (update_site_config "s" [("k", .str "v"),
          ("nested", .obj [("a", .num 1)])] "."
          [((".", "s"), [("other", .num 5),
            ("nested", .obj [("b", .num 2)])])])) "other"
      = some (.num 5) ∧
    lookupA (get_site_config "s" "."
        (update_site_config "s" [("k", .str "v"),
          ("nested", .obj [("a", .num 1)])] "."
          [((".", "s"), [("other", .num 5),
            ("nested", .obj [("b", .num 2)])])])) "nested"
      = some (.obj [("a", .num 1)]) ∧
    lookupA ((lookupA (update_common_site_config [("k", .str "v")] "."
        [(".", [("maintenance_mode", .num 1)])]) ".").getD [])
        "maintenance_mode"
      = some (.num 1) ∧
    lookupA ((lookupA (update_common_site_config [("k", .str "v")] "."
        [(".", [("maintenance_mode", .num 1)])]) ".").getD []) "k"
      = some (.str "v") := by
  refine ⟨?_, ?_, ?_, ?_⟩
  · exact (update_config_top_level_merge "s" "." [("k", .str "v"),
      ("nested", .obj [("a", .num 1)])] [("k", .str "v")]
      [((".", "s"), [("other", .num 5), ("nested", .obj [("b", .num 2)])])]
      [(".", [("maintenance_mode", .num 1)])] "other").1 (by decide)
  · exact (update_config_top_level_merge "s" "." [("k", .str "v"),
      ("nested", .obj [("a", .num 1)])] [("k", .str "v")]
      [((".", "s"), [("other", .num 5), ("nested", .obj [("b", .num 2)])])]
      [(".", [("maintenance_mode", .num 1)])] "nested").2.1
      (.obj [("a", .num 1)]) (by decide) rfl
  · exact (update_config_top_level_merge "s" "." [("k", .str "v"),
      ("nested", .obj [("a", .num 1)])] [("k", .str "v")]
      [((".", "s"), [("other", .num 5), ("nested", .obj [("b", .num 2)])])]
      [(".", [("maintenance_mode", .num 1)])] "maintenance_mode").2.2.1
      (by decide)
  · exact (update_config_top_level_merge "s" "." [("k", .str "v"),
      ("nested", .obj [("a", .num 1)])] [("k", .str "v")]
      [((".", "s"), [("other", .num 5), ("nested", .obj [("b", .num 2)])])]
      [(".", [("maintenance_mode", .num 1)])] "k").2.2.2
      (.str "v") (by decide) rfl

theorem charListLe_total (a b : List Char) :
    charListLe a b = true ∨ charListLe b a = true := by
  induction a generalizing b with
  | nil => left; rfl
  | cons c cs ih =>
      cases b with
      | nil => right; rfl
      | cons d ds =>
          by_cases h1 : c.toNat < d.toNat
          · left; simp [charListLe, h1]
          · by_cases h2 : d.toNat < c.toNat
            · right; simp [charListLe, h2]
            · rcases ih ds with h | h
              · left; simp [charListLe, h1, h2, h]
              · right; simp [charListLe, h1, h2, h]

theorem charListLe_antisymm (a b : List Char) (hab : charListLe a b = true)
    (hba : charListLe b a = true) : a = b := by
  induction a generalizing b with
  | nil =>
      cases b with
      | nil => rfl
      | cons d ds => simp [charListLe] at hba
  | cons c cs ih =>
      cases b with
      | nil => simp [charListLe] at hab
      | cons d ds =>
          by_cases h1 : c.toNat < d.toNat
          · have h2 : ¬d.toNat < c.toNat := by omega
            simp [charListLe, h1, h2] at hba
          · by_cases h2 : d.toNat < c.toNat
            · simp [charListLe, h1, h2] at hab
            · have hcd : c = d :=
                Char.ext (UInt32.ext (show c.toNat = d.toNat by omega))
              subst hcd
              simp only [charListLe, if_neg h1, if_neg h2] at hab hba
              rw [ih ds hab hba]

theorem charListLe_trans (a b c : List Char) (hab : charListLe a b = true)
    (hbc : charListLe b c = true) : charListLe a c = true := by
  induction a generalizing b c with
  | nil => rfl
  | cons x xs ih =>
      cases b with
      | nil => simp [charListLe] at hab
      | cons y ys =>
          cases c with
          | nil => simp [charListLe] at hbc
          | cons z zs =>
              by_cases hxy1 : x.toNat < y.toNat
              · by_cases hyz1 : y.toNat < z.toNat
                · simp [charListLe, show x.toNat < z.toNat by omega]
                · by_cases hyz2 : z.toNat < y.toNat
                  · simp [charListLe, hyz1, hyz2] at hbc
                  · simp [charListLe, show x.toNat < z.toNat by omega]
              · by_cases hxy2 : y.toNat < x.toNat
                · simp [charListLe, hxy1, hxy2] at hab
                · by_cases hyz1 : y.toNat < z.toNat
                  · simp [charListLe, show x.toNat < z.toNat by omega]
                  · by_cases hyz2 : z.toNat < y.toNat
                    · simp [charListLe, hyz1, hyz2] at hbc
                    · have g1 : ¬x.toNat < z.toNat := by omega
                      have g2 : ¬z.toNat < x.toNat := by omega
                      simp only [charListLe, if_neg hxy1, if_neg hxy2] at hab
                      simp only [charListLe, if_neg hyz1, if_neg hyz2] at hbc
                      simp only [charListLe, if_neg g1, if_neg g2]
                      exact ih ys zs hab hbc

theorem strLeb_total (a b : String) : strLeb a b = true ∨ strLeb b a = true :=
  charListLe_total a.data b.data

theorem strLeb_antisymm {a b : String} (hab : strLeb a b = true)
    (hba : strLeb b a = true) : a = b :=
  String.ext (charListLe_antisymm _ _ hab hba)

theorem strLeb_trans {a b c : String} (hab : strLeb a b = true)
    (hbc : strLeb b c = true) : strLeb a c = true :=
  charListLe_trans _ _ _ hab hbc

theorem insertSorted_perm (x : String × JValue)
    (l : List (String × JValue)) : (insertSorted x l).Perm (x :: l) := by
  induction l with
  | nil => exact List.Perm.refl _
  | cons y ys ih =>
      by_cases h : strLeb x.1 y.1 = true
      · simp [insertSorted, h]
      · simp only [insertSorted, if_neg h]
        exact (ih.cons y).trans (List.Perm.swap x y ys)

theorem pairwise_insertSorted (x : String × JValue)
    (l : List (String × JValue)) (h : List.Pairwise keyLe l) :
    List.Pairwise keyLe (insertSorted x l) := by
  induction l with
  | nil => simp [insertSorted]
  | cons y ys ih =>
      rcases List.pairwise_cons.mp h with ⟨hy, hys⟩
      by_cases hxy : strLeb x.1 y.1 = true
      · simp only [insertSorted, if_pos hxy]
        refine List.pairwise_cons.mpr ⟨?_, h⟩
        intro z hz
        rcases List.mem_cons.mp hz with rfl | hz'
        · exact hxy
        · exact strLeb_trans hxy (hy z hz')
      · simp only [insertSorted, if_neg hxy]
        refine List.pairwise_cons.mpr ⟨?_, ih hys⟩
        intro z hz
        have hz2 : z ∈ x :: ys := (insertSorted_perm x ys).mem_iff.mp hz
        rcases List.mem_cons.mp hz2 with hzx | hz'
        · rw [hzx]
          rcases strLeb_total x.1 y.1 with h' | h'
          · exact absurd h' hxy
          · exact h'
        · exact hy z hz'

theorem sortKeys_perm (l : List (String × JValue)) : (sortKeys l).Perm l := by
  induction l with
  | nil => exact List.Perm.refl _
  | cons x xs ih =>
      exact (insertSorted_perm x (sortKeys xs)).trans (ih.cons x)

theorem sortKeys_pairwise (l : List (String × JValue)) :
    List.Pairwise keyLe (sortKeys l) := by
  induction l with
  | nil => simp [sortKeys]
  | cons x xs ih => exact pairwise_insertSorted x (sortKeys xs) ih

/-- C10 amended, positive part: the installation-wide writer
(`json.dump(..., indent=1, sort_keys=True)`, snova.py line 557) emits
byte-identical output for any two representations of the same mapping
(same key-value items in any order, keys unique). -/
theorem serialize_common_site_config_key_order_stable (l1 l2 : Config)
    (hp : l1.Perm l2) (hnd : (keysA l1).Nodup) :
    serialize_common_site_config l1 = serialize_common_site_config l2 := by
  have hsort : sortKeys l1 = sortKeys l2 := by
    have hperm : (sortKeys l1).Perm (sortKeys l2) :=
      (sortKeys_perm l1).trans (hp.trans (sortKeys_perm l2).symm)
    have hnd1 : ((sortKeys l1).map Prod.fst).Nodup :=
      ((sortKeys_perm l1).map Prod.fst).nodup_iff.mpr hnd
    have hnd2 : ((sortKeys l2).map Prod.fst).Nodup :=
      ((hperm.map Prod.fst).nodup_iff).mp hnd1
    have hs1 : List.Pairwise (fun a b => keyLe a b ∧ a.1 ≠ b.1)
        (sortKeys l1) :=
      (sortKeys_pairwise l1).and (List.pairwise_map.mp hnd1)
    have hs2 : List.Pairwise (fun a b => keyLe a b ∧ a.1 ≠ b.1)
        (sortKeys l2) :=
      (sortKeys_pairwise l2).and (List.pairwise_map.mp hnd2)
    haveI : IsAntisymm (String × JValue)
        (fun a b => keyLe a b ∧ a.1 ≠ b.1) :=
      ⟨fun a b hab hba => (hab.2 (strLeb_antisymm hab.1 hba.1)).elim⟩
    exact List.eq_of_perm_of_sorted hperm hs1 hs2
  unfold serialize_common_site_config
  rw [hsort]

/-- C10 amended witness: two orderings of one two-key mapping serialize
to the same bytes under the installation-wide writer. -/
theorem serialize_common_site_config_key_order_stable_witness :
    serialize_common_site_config [("b", .num 1), ("a", .num 2)]
      = serialize_common_site_config [("a", .num 2), ("b", .num 1)] :=
  serialize_common_site_config_key_order_stable _ _
    (List.Perm.swap ("a", JValue.num 2) ("b", JValue.num 1) []) (by decide)

/-- C10 counterexample: the per-site writer (`json.dump(config, f,
indent=1)` with no `sort_keys`, site_config.py line 18) is not stable
under key reordering: two orderings of the same two-key mapping (unique
keys, item-permutation of each other) produce different bytes, refuting
byte-identical output for both writers. -/
theorem serialize_site_config_key_order_counterexample :
    ([("b", JValue.num 1), ("a", JValue.num 2)] : Config).Perm
        [("a", JValue.num 2), ("b", JValue.num 1)] ∧
      (keysA ([("b", JValue.num 1), ("a", JValue.num 2)] : Config)).Nodup ∧
      serialize_site_config [("b", JValue.num 1), ("a", JValue.num 2)]
        ≠ serialize_site_config [("a", JValue.num 2), ("b", JValue.num 1)] :=
  ⟨List.Perm.swap ("a", JValue.num 2) ("b", JValue.num 1) [], by decide,
    by decide⟩

theorem seqE_stage (cond ok : Bool) (s : Step) (e : UErr) (st : UState)
    (k : UState → Except UErr Unit × UState) :
    seqE (stage cond s ok e st) k
      = if cond then
          (if ok then k (logStep st s) else (.error e, logStep st s))
        else k st := by
  cases cond <;> cases ok <;> simp [seqE, stage]

/-- A stage that is not the patch stage cannot be the origin of a
`patchError` result: when the chain ends in `patchError`, the stage
succeeded or was skipped, passing a state with the same writes/conf and
at most its own step appended. -/
theorem seqE_stage_patchError (cond ok : Bool) (s : Step) (e : UErr)
    (he : e ≠ .patchError) (st : UState)
    (k : UState → Except UErr Unit × UState) (st' : UState)
    (h : seqE (stage cond s ok e st) k = (.error .patchError, st')) :
    ∃ st2, k st2 = (.error .patchError, st') ∧ st2.writes = st.writes ∧
      st2.conf = st.conf ∧
      ∃ ts, st2.trace = st.trace ++ ts ∧ ∀ t ∈ ts, t = s := by
  rw [seqE_stage] at h
  split_ifs at h with h1 h2
  · exact ⟨logStep st s, h, rfl, rfl, [s], rfl, by simp⟩
  · exfalso
    apply he
    have := congrArg Prod.fst h
    simpa using this
  · exact ⟨st, h, rfl, rfl, [], by simp, by simp⟩

theorem patch_sites_writes (f ss : List String) (st : UState) :
    (patch_sites f ss st).2.writes = st.writes := by
  induction ss generalizing st with
  | nil => rfl
  | cons s rest ih =>
      by_cases h : s ∈ f
      · simp [patch_sites, h, logStep]
      · simp only [patch_sites, if_neg h]
        exact ih _

theorem patch_sites_conf (f ss : List String) (st : UState) :
    (patch_sites f ss st).2.conf = st.conf := by
  induction ss generalizing st with
  | nil => rfl
  | cons s rest ih =>
      by_cases h : s ∈ f
      · simp [patch_sites, h, logStep]
      · simp only [patch_sites, if_neg h]
        exact ih _

theorem patch_sites_trace (f ss : List String) (st : UState) :
    ∃ sl : List String, (patch_sites f ss st).2.trace
      = st.trace ++ sl.map Step.patchSite := by
  induction ss generalizing st with
  | nil => exact ⟨[], by simp [patch_sites]⟩
  | cons s rest ih =>
      by_cases h : s ∈ f
      · exact ⟨[s], by simp [patch_sites, h, logStep]⟩
      · obtain ⟨sl, hsl⟩ := ih (logStep st (.patchSite s))
        refine ⟨s :: sl, ?_⟩
        simp only [patch_sites, if_neg h]
        rw [hsl]
        simp [logStep]

theorem patch_sites_err (f ss : List String) (st : UState) (e : UErr)
    (h : (patch_sites f ss st).1 = .error e) : e = .patchError := by
  induction ss generalizing st with
  | nil => simp [patch_sites] at h
  | cons s rest ih =>
      by_cases hm : s ∈ f
      · simp [patch_sites, hm] at h
        exact h.symm
      · simp only [patch_sites, if_neg hm] at h
        exact ih _ h

theorem updateTail_err (env : Env) (b f : Bool) (st : UState) (e : UErr)
    (h : (updateTail env b f st).1 = .error e) : e = .buildFailed := by
  rw [updateTail, seqE_stage] at h
  split_ifs at h
  all_goals simp at h
  all_goals exact h.symm

/-- Case split for a sequenced stage result that ended in `patchError`:
either the stage succeeded and the continuation produced the error, or
the stage itself was the source. -/
theorem seqE_patchError_cases (x : Except UErr Unit × UState)
    (k : UState → Except UErr Unit × UState) (st' : UState)
    (h : seqE x k = (.error .patchError, st')) :
    k x.2 = (.error .patchError, st')
      ∨ x = (.error .patchError, st') := by
  rcases x with ⟨r, st⟩
  cases r with
  | ok u => exact .inl h
  | error e => exact .inr h

theorem lookup_maintenance_on (c : Config) :
    lookupA (dictUpdate c [("maintenance_mode", JValue.num 1),
      ("pause_scheduler", JValue.num 1)]) "maintenance_mode"
      = some (JValue.num 1) := by
  apply lookupA_dictUpdate_mem
  · decide
  · rfl

/-- C1: whenever an `update` run ends with `PatchError` (a site migration
failed in the patch stage), the last-persisted installation config still
has `maintenance_mode = 1`, and neither the build stage nor the reload
stage was executed. -/
theorem update_patch_error_halts (env : Env)
    (pull patch build requirements backup force : Bool) (conf0 : Config)
    (st : UState)
    (h : update env pull patch build requirements backup force conf0
      = (.error .patchError, st)) :
    (∃ c, st.writes.head? = some c ∧
        lookupA c "maintenance_mode" = some (JValue.num 1)) ∧
    Step.build ∉ st.trace ∧ Step.reload ∉ st.trace := by
  simp only [update] at h
  split at h
  · simp at h
  split at h
  · simp at h
  split at h
  · simp at h
  split at h
  case h_1 e heq =>
    exfalso
    have he : e = .patchError := by simpa using congrArg Prod.fst h
    subst he
    rcases show UErr.patchError = .userAbort ∨ UErr.patchError
        = .upgradeBlocked by
      have h2 : handle_version_upgrade env force = .error .patchError := heq
      rw [handle_version_upgrade] at h2
      split_ifs at h2 <;> simp_all
      with h3 | h3 <;> exact absurd h3 (by simp)
  case h_2 heq =>
    obtain ⟨st4, h, hw4, hc4, ts4, ht4, hts4⟩ :=
      seqE_stage_patchError _ _ _ _ (by simp) _ _ _ h
    obtain ⟨st5, h, hw5, hc5, ts5, ht5, hts5⟩ :=
      seqE_stage_patchError _ _ _ _ (by simp) _ _ _ h
    obtain ⟨st6, h, hw6, hc6, ts6, ht6, hts6⟩ :=
      seqE_stage_patchError _ _ _ _ (by simp) _ _ _ h
    rcases seqE_patchError_cases _ _ _ h with hk | heqe
    · -- the patch stage skipped or succeeded: the tail cannot raise
      -- patchError
      exfalso
      have hterr := updateTail_err env _ force _ _ (by rw [hk])
      simp at hterr
    · -- the patch stage itself raised
      have hpz : (if (!(pull || patch || build || requirements)) = true
          then true else patch) = true := by
        by_contra hp
        rw [if_neg hp] at heqe
        simp at heqe
      rw [if_pos hpz] at heqe
      have hsnd : (patch_sites env.failingSites env.sites st6).2 = st :=
        congrArg Prod.snd heqe
      have hwp : st.writes = st6.writes := by
        rw [← hsnd]
        exact patch_sites_writes _ _ _
      obtain ⟨sl, hsl⟩ := patch_sites_trace env.failingSites env.sites st6
      rw [hsnd] at hsl
      refine ⟨⟨_, ?_, lookup_maintenance_on conf0⟩, ?_, ?_⟩
      · rw [hwp, hw6, hw5, hw4]
        simp [persistConf, logStep]
      · rw [hsl, ht6, ht5, ht4]
        simp only [persistConf, logStep, List.mem_append, List.mem_map]
        rintro ((((hmem | hmem) | hmem) | hmem) | ⟨s, _, hmem⟩)
        · simp [persistConf, logStep] at hmem
        · exact absurd (hts4 _ hmem) (by simp)
        · exact absurd (hts5 _ hmem) (by simp)
        · exact absurd (hts6 _ hmem) (by simp)
        · simp at hmem
      · rw [hsl, ht6, ht5, ht4]
        simp only [persistConf, logStep, List.mem_append, List.mem_map]
        rintro ((((hmem | hmem) | hmem) | hmem) | ⟨s, _, hmem⟩)
        · simp [persistConf, logStep] at hmem
        · exact absurd (hts4 _ hmem) (by simp)
        · exact absurd (hts5 _ hmem) (by simp)
        · exact absurd (hts6 _ hmem) (by simp)
        · simp at hmem

/-- C1 witness: a default-flag run (all four stages enabled) over one
site whose migration fails ends in `patchError`, with `maintenance_mode`
1 in the last persisted config and no build or reload step in the trace. -/
theorem update_patch_error_halts_witness :
    (∃ c, (update envPatchFail false false false false true false
        []).2.writes.head? = some c ∧
      lookupA c "maintenance_mode" = some (JValue.num 1)) ∧
    Step.build ∉ (update envPatchFail false false false false true false
        []).2.trace ∧
    Step.reload ∉ (update envPatchFail false false false false true false
        []).2.trace := by
  refine update_patch_error_halts envPatchFail false false false false
    true false [] _ (Prod.ext ?_ rfl)
  rfl

/-- C2: with `patches.run` completing, an `update` on an installation
whose config has a truthy `release_snova` raises
`CannotUpdateReleaseSnova` before any mutation: no config persist
happened (`writes = []`) and the trace holds only the internal-patch
step of the Gate stage — no backup, pull, requirements, patch, build or
reload step ran. -/
theorem update_release_snova_blocked (env : Env)
    (pull patch build requirements backup force : Bool) (conf0 : Config)
    (hok : env.patchesRunOk = true)
    (hrel : truthy (lookupA conf0 "release_snova") = true) :
    update env pull patch build requirements backup force conf0
      = (.error .cannotUpdateReleaseSnova,
          { conf := conf0, writes := [], trace := [Step.patchesRun] }) := by
  simp [update, hok, hrel, logStep]

/-- C2 witness: `update` on the config with `release_snova: true` raises
the blocked error with an empty write log. -/
theorem update_release_snova_blocked_witness :
    update envAllOk true false false false true false
        [("release_snova", JValue.bool true)]
      = (.error .cannotUpdateReleaseSnova,
          { conf := [("release_snova", JValue.bool true)], writes := [],
            trace := [Step.patchesRun] }) :=
  update_release_snova_blocked envAllOk true false false false true false
    [("release_snova", JValue.bool true)] rfl rfl

/-- C6: with no `supervisor_restart_cmd` override and the non-escalated
probe failing with exit code 127 (supervisorctl not on PATH),
`restart_supervisor_processes` logs the warning and returns the
non-fatal skip: no sudo escalation is attempted, no restart command is
issued, and nothing is raised. -/
theorem restart_probe_127_skips (env : REnv) (snova_name : String)
    (web_workers : Bool)
    (hcmd : truthy (lookupA env.conf "supervisor_restart_cmd") = false)
    (hprobe : env.probeResult = .error 127) :
    restart_supervisor_processes env snova_name web_workers
      = (.skipped, [.probe false]) := by
  simp [restart_supervisor_processes, hcmd, hprobe]

/-- C6 witness: scenario C — probe exit code 127 yields the skip with
only the one probe in the command trace. -/
theorem restart_probe_127_skips_witness :
    restart_supervisor_processes
        ⟨[], .error 127, .error 1, false⟩ "myinstall" false
      = (.skipped, [.probe false]) :=
  restart_probe_127_skips ⟨[], .error 127, .error 1, false⟩ "myinstall"
    false rfl rfl

/-- C7: on a successful non-escalated probe without the permission
marker, the restart targets the group resolved from the probe output by
first match in priority order: the web-only group (when requested and
present, with the trailing tab of line 308), else the combined
workers+web group, else the legacy processes group, else `sparrow:`. -/
theorem restart_group_selection (env : REnv) (snova_name status : String)
    (web_workers : Bool)
    (hcmd : truthy (lookupA env.conf "supervisor_restart_cmd") = false)
    (hprobe : env.probeResult = .ok status)
    (hperm : containsSub status permDeniedMarker = false) :
    restart_supervisor_processes env snova_name web_workers
      = (.restarted env.restartFails,
          [.probe false, .restart ("supervisorctl restart "
            ++ selectGroup web_workers snova_name status)]) ∧
    ((web_workers && containsSub status (snova_name ++ "-web:")) = true →
      selectGroup web_workers snova_name status
        = snova_name ++ "-web:\t") ∧
    ((web_workers && containsSub status (snova_name ++ "-web:")) = false →
      containsSub status (snova_name ++ "-workers:") = true →
      selectGroup web_workers snova_name status
        = snova_name ++ "-workers: " ++ snova_name ++ "-web:") ∧
    ((web_workers && containsSub status (snova_name ++ "-web:")) = false →
      containsSub status (snova_name ++ "-workers:") = false →
      containsSub status (snova_name ++ "-processes:") = true →
      selectGroup web_workers snova_name status
        = snova_name ++ "-processes:") ∧
    ((web_workers && containsSub status (snova_name ++ "-web:")) = false →
      containsSub status (snova_name ++ "-workers:") = false →
      containsSub status (snova_name ++ "-processes:") = false →
      selectGroup web_workers snova_name status = "sparrow:") := by
  refine ⟨?_, ?_, ?_, ?_, ?_⟩
  · simp [restart_supervisor_processes, hcmd, hprobe, hperm, issueRestart]
  · intro h1
    simp [selectGroup, h1]
  · intro h1 h2
    simp [selectGroup, h1, h2]
  · intro h1 h2 h3
    simp [selectGroup, h1, h2, h3]
  · intro h1 h2 h3
    simp [selectGroup, h1, h2, h3]

/-- C7 witness: probe output `myinstall-web: RUNNING` with web-only mode
selects the web-only group; output `myinstall-workers: RUNNING` with
web-only mode off selects the combined group — as full command traces. -/
theorem restart_group_selection_witness :
    restart_supervisor_processes
        ⟨[], .ok "myinstall-web: RUNNING", .error 1, false⟩
        "myinstall" true
      = (.restarted false,
          [.probe false,
            .restart "supervisorctl restart myinstall-web:\t"]) ∧
    restart_supervisor_processes
        ⟨[], .ok "myinstall-workers: RUNNING", .error 1, false⟩
        "myinstall" false
      = (.restarted false,
          [.probe false,
            .restart
              "supervisorctl restart myinstall-workers: myinstall-web:"]) := by
  constructor
  · exact (restart_group_selection
      ⟨[], .ok "myinstall-web: RUNNING", .error 1, false⟩
      "myinstall" "myinstall-web: RUNNING" true rfl rfl (by decide)).1.trans
      (by decide)
  · exact (restart_group_selection
      ⟨[], .ok "myinstall-workers: RUNNING", .error 1, false⟩
      "myinstall" "myinstall-workers: RUNNING" false rfl rfl
      (by decide)).1.trans (by decide)

end Snova
